import Mathlib

/-!
Shallow embedding of the Life Timeline Planner (`src/src/main.jsx`):
the milestone data model, the derived timeline index (`timelines`),
the positional color assignment (`colorFamilies` / `getColorFamily` /
`timelineColors`), the chart-data transform (`chartData`), and the
state transitions of the `App` component (`handleSubmit`,
`handleDelete`, `toggleTimeline`).

JavaScript collections are modelled as follows: a `Set` of strings
iterated in insertion order becomes a fold that appends unseen
elements (`jsSetFrom`); a plain object used as a string-keyed map
becomes an association list of its own keys in creation order, whose
`Object.entries` enumeration reorders array-index keys (canonical
numeric strings up to 2^32 - 2) first in ascending numeric order
(`jsEntryOrder`), and whose key lookups can hit the inherited
properties of `Object.prototype` — a timeline named after one of them
makes the grouping loop throw, so the chart transform is
`Option`-valued; `Date` values become `Option Int` epoch milliseconds,
`none` standing for an Invalid Date whose `getTime()` is `NaN`.
-/

/-- A milestone record as stored in the component state and in
`localStorage`.  The `notes` field is `Option String` because the code
sometimes builds the record from a form object whose `notes` key is
absent (JavaScript `undefined`). -/
structure Milestone where
  id : String
  title : String
  timeline : String
  start : String
  «end» : String
  notes : Option String
deriving Repr, DecidableEq

/-- The fixed five-entry palette `colorFamilies` from the source, each
entry a (light, mid, dark) triple. -/
def colorFamilies : List (String × String × String) :=
  [("#E3F2FD", "#42A5F5", "#1E88E5"),
   ("#E8F5E9", "#66BB6A", "#43A047"),
   ("#F3E5F5", "#AB47BC", "#8E24AA"),
   ("#FFF8E1", "#FFB300", "#FB8C00"),
   ("#E0F2F1", "#26A69A", "#00897B")]

/-- The function `getColorFamily(index)` =
`colorFamilies[index % colorFamilies.length]`. -/
def getColorFamily (index : Nat) : String × String × String :=
  colorFamilies.get ⟨index % colorFamilies.length, Nat.mod_lt _ (by decide)⟩

/-- One step of building a JavaScript `Set` (insertion order, duplicates
skipped). -/
def jsSetInsert (acc : List String) (t : String) : List String :=
  if t ∈ acc then acc else acc ++ [t]

/-- The value `Array.from(new Set(l))`: the distinct elements of `l` in first-seen
order. -/
def jsSetFrom (l : List String) : List String :=
  l.foldl jsSetInsert []

/-- The Timeline Index `timelines` of the source:
`Array.from(new Set(milestones.map(m => m.timeline)))`. -/
def timelines (milestones : List Milestone) : List String :=
  jsSetFrom (milestones.map (fun m => m.timeline))

/-- The specification's description of the Timeline Index, written as a
recursion on the scanned list: collect each value the first time it is
seen, drop every later duplicate, never sort. -/
def firstSeenIndex : List String → List String
  | [] => []
  | t :: rest => t :: (firstSeenIndex rest).filter (fun u => decide (u ≠ t))

theorem foldl_jsSetInsert (l : List String) :
    ∀ acc : List String,
      l.foldl jsSetInsert acc =
        acc ++ (firstSeenIndex l).filter (fun u => decide (u ∉ acc)) := by
  induction l with
  | nil => intro acc; simp [firstSeenIndex]
  | cons t rest ih =>
    intro acc
    by_cases h : t ∈ acc
    · have hstep : jsSetInsert acc t = acc := by simp [jsSetInsert, h]
      calc (t :: rest).foldl jsSetInsert acc
          = rest.foldl jsSetInsert acc := by simp [List.foldl_cons, hstep]
        _ = acc ++ (firstSeenIndex rest).filter (fun u => decide (u ∉ acc)) := ih acc
        _ = acc ++ (firstSeenIndex (t :: rest)).filter (fun u => decide (u ∉ acc)) := by
            simp only [firstSeenIndex, List.filter_cons, decide_eq_true_eq]
            rw [if_neg (by simp [h])]
            rw [List.filter_filter]
            congr 1
            apply List.filter_congr
            intro u _
            by_cases hu : u ∈ acc
            · simp [hu]
            · have : u ≠ t := fun he => hu (he ▸ h)
              simp [hu, this]
    · have hstep : jsSetInsert acc t = acc ++ [t] := by simp [jsSetInsert, h]
      calc (t :: rest).foldl jsSetInsert acc
          = rest.foldl jsSetInsert (acc ++ [t]) := by simp [List.foldl_cons, hstep]
        _ = (acc ++ [t]) ++ (firstSeenIndex rest).filter (fun u => decide (u ∉ acc ++ [t])) :=
            ih (acc ++ [t])
        _ = acc ++ (firstSeenIndex (t :: rest)).filter (fun u => decide (u ∉ acc)) := by
            simp only [firstSeenIndex, List.filter_cons, decide_eq_true_eq]
            rw [if_pos (by simp [h])]
            rw [List.append_assoc]
            congr 1
            rw [List.singleton_append]
            congr 1
            rw [List.filter_filter]
            apply List.filter_congr
            intro u _
            by_cases hu : u ∈ acc
            · simp [hu]
            · by_cases hut : u = t
              · simp [hut, hu]
              · simp [hu, hut]

/-- The code's Timeline Index is exactly the specification's first-seen
scan of the stored timeline values. -/
theorem jsSetFrom_eq_firstSeenIndex (l : List String) :
    jsSetFrom l = firstSeenIndex l := by
  have h := foldl_jsSetInsert l []
  simpa [jsSetFrom] using h

theorem timelines_eq_firstSeenIndex (ms : List Milestone) :
    timelines ms = firstSeenIndex (ms.map (fun m => m.timeline)) :=
  jsSetFrom_eq_firstSeenIndex _

theorem firstSeenIndex_nodup (l : List String) : (firstSeenIndex l).Nodup := by
  induction l with
  | nil => simp [firstSeenIndex]
  | cons t rest ih =>
    simp only [firstSeenIndex, List.nodup_cons]
    constructor
    · intro hmem
      have := List.of_mem_filter hmem
      simp at this
    · exact ih.filter _

theorem timelines_nodup (ms : List Milestone) : (timelines ms).Nodup := by
  rw [timelines_eq_firstSeenIndex]; exact firstSeenIndex_nodup _

theorem mem_firstSeenIndex (l : List String) (t : String) :
    t ∈ firstSeenIndex l ↔ t ∈ l := by
  induction l with
  | nil => simp [firstSeenIndex]
  | cons a rest ih =>
    simp only [firstSeenIndex, List.mem_cons]
    constructor
    · rintro (rfl | hmem)
      · exact Or.inl rfl
      · exact Or.inr (ih.mp (List.mem_of_mem_filter hmem))
    · rintro (rfl | hmem)
      · exact Or.inl rfl
      · by_cases hat : t = a
        · exact Or.inl hat
        · exact Or.inr (List.mem_filter.mpr ⟨ih.mpr hmem, by simp [hat]⟩)

theorem mem_timelines (ms : List Milestone) (t : String) :
    t ∈ timelines ms ↔ t ∈ ms.map (fun m => m.timeline) := by
  rw [timelines_eq_firstSeenIndex]; exact mem_firstSeenIndex _ _

/-! ## Grouping milestones by timeline (`chartData`'s `grouped` object)

The source builds `grouped = {}` and pushes each milestone onto
`grouped[m.timeline]`, creating the key on first sight.  The object's
own keys are modelled as an association list to which new keys are
appended (creation order) and existing keys have the milestone pushed
onto their list; the `Object.entries` enumeration order and the crash
on prototype-colliding keys are layered on top below (`jsEntryOrder`,
`grouped?`). -/

/-- Processing one milestone of the `milestones.forEach` loop that
builds `grouped`. -/
def groupStep (acc : List (String × List Milestone)) (m : Milestone) :
    List (String × List Milestone) :=
  if m.timeline ∈ acc.map Prod.fst then
    acc.map (fun p => if p.1 = m.timeline then (p.1, p.2 ++ [m]) else p)
  else
    acc ++ [(m.timeline, [m])]

/-- The finished `grouped` object, as its own-key association list in
creation order. -/
def grouped (ms : List Milestone) : List (String × List Milestone) :=
  ms.foldl groupStep []

theorem groupStep_keys (acc : List (String × List Milestone)) (m : Milestone) :
    (groupStep acc m).map Prod.fst = acc.map Prod.fst ++
      (if m.timeline ∈ acc.map Prod.fst then [] else [m.timeline]) := by
  unfold groupStep
  by_cases h : m.timeline ∈ acc.map Prod.fst
  · rw [if_pos h, if_pos h, List.map_map, List.append_nil]
    apply List.map_congr_left
    intro p _
    by_cases hp : p.1 = m.timeline <;> simp [hp]
  · rw [if_neg h, if_neg h]
    simp

theorem foldl_groupStep (ms : List Milestone) :
    ∀ acc : List (String × List Milestone),
      ms.foldl groupStep acc =
        acc.map (fun p => (p.1, p.2 ++ ms.filter (fun m => decide (m.timeline = p.1))))
        ++ ((firstSeenIndex (ms.map (fun m => m.timeline))).filter
              (fun t => decide (t ∉ acc.map Prod.fst))).map
             (fun t => (t, ms.filter (fun m => decide (m.timeline = t)))) := by
  induction ms with
  | nil =>
    intro acc
    simp [firstSeenIndex]
  | cons m rest ih =>
    intro acc
    rw [List.foldl_cons, ih (groupStep acc m)]
    by_cases h : m.timeline ∈ acc.map Prod.fst
    · have hstep : groupStep acc m =
          acc.map (fun p => if p.1 = m.timeline then (p.1, p.2 ++ [m]) else p) := by
        simp [groupStep, h]
      have hkeys : (groupStep acc m).map Prod.fst = acc.map Prod.fst := by
        rw [groupStep_keys, if_pos h, List.append_nil]
      congr 1
      · -- updated-accumulator part
        rw [hstep, List.map_map]
        apply List.map_congr_left
        intro p _
        by_cases hp : p.1 = m.timeline
        · simp only [Function.comp, hp, if_pos rfl]
          rw [List.filter_cons]
          simp [hp, List.append_assoc]
        · simp only [Function.comp, if_neg hp]
          rw [List.filter_cons]
          have : ¬ (m.timeline = p.1) := fun he => hp he.symm
          simp [this]
      · -- fresh-groups part
        rw [hkeys]
        simp only [List.map_cons, firstSeenIndex, List.filter_cons, decide_eq_true_eq]
        rw [if_neg (by simp [h])]
        rw [List.filter_filter]
        have hfil : (firstSeenIndex (rest.map (fun m => m.timeline))).filter
              (fun t => decide (t ∉ acc.map Prod.fst)) =
            (firstSeenIndex (rest.map (fun m => m.timeline))).filter
              (fun t => decide (t ∉ acc.map Prod.fst) && decide (t ≠ m.timeline)) := by
          apply List.filter_congr
          intro t _
          by_cases ht : t ∈ acc.map Prod.fst
          · simp [ht]
          · have : t ≠ m.timeline := fun he => ht (he ▸ h)
            simp [ht, this]
        rw [hfil]
        apply List.map_congr_left
        intro t ht
        have ht2 := List.of_mem_filter ht
        simp only [Bool.and_eq_true, decide_eq_true_eq] at ht2
        have hne : ¬ (m.timeline = t) := fun he => ht2.2 he.symm
        simp [hne]
    · have hstep : groupStep acc m = acc ++ [(m.timeline, [m])] := by
        simp [groupStep, h]
      rw [hstep]
      simp only [List.map_append, List.map_cons, List.map_nil, List.append_assoc,
        List.singleton_append]
      congr 1
      · -- old accumulator entries: m does not match any of their keys
        apply List.map_congr_left
        intro p hp
        have hpk : p.1 ∈ acc.map Prod.fst := List.mem_map_of_mem Prod.fst hp
        have hpm : ¬ (m.timeline = p.1) := fun he => h (he ▸ hpk)
        rw [List.filter_cons]
        simp [hpm]
      · -- the new group for m.timeline followed by the later fresh groups
        simp only [firstSeenIndex, List.filter_cons, decide_eq_true_eq]
        rw [if_pos (by simp [h])]
        simp only [List.map_cons]
        congr 1
        · rw [List.filter_filter]
          have hfil : (firstSeenIndex (rest.map (fun m => m.timeline))).filter
                (fun t => decide (t ∉ acc.map Prod.fst ++ [m.timeline])) =
              (firstSeenIndex (rest.map (fun m => m.timeline))).filter
                (fun t => decide (t ∉ acc.map Prod.fst) && decide (t ≠ m.timeline)) := by
            apply List.filter_congr
            intro t _
            by_cases ht : t ∈ acc.map Prod.fst
            · simp [ht]
            · by_cases htm : t = m.timeline
              · simp [htm]
              · simp [ht, htm]
          rw [hfil]
          apply List.map_congr_left
          intro t ht
          have ht2 := List.of_mem_filter ht
          simp only [Bool.and_eq_true, decide_eq_true_eq] at ht2
          have hne : ¬ (m.timeline = t) := fun he => ht2.2 he.symm
          simp [hne]

/-- The list `Object.entries(grouped)` holds one entry per Timeline Index key, in
Timeline Index order, whose value is the subsequence of milestones with
that timeline in repository (insertion) order. -/
theorem grouped_eq (ms : List Milestone) :
    grouped ms =
      (timelines ms).map (fun t => (t, ms.filter (fun m => decide (m.timeline = t)))) := by
  have h := foldl_groupStep ms []
  rw [timelines_eq_firstSeenIndex]
  simpa [grouped] using h

theorem grouped_keys (ms : List Milestone) :
    (grouped ms).map Prod.fst = timelines ms := by
  rw [grouped_eq, List.map_map]
  exact List.map_id (timelines ms)

/-! ## JavaScript object semantics: prototype collisions and `Object.entries` order

Two aspects of plain-object semantics are observable in `chartData`'s
`grouped` object and were not captured by the association list alone:

* `grouped = {}` inherits from `Object.prototype`, so for a timeline
  named after one of its properties (`"__proto__"`, `"toString"`,
  `"constructor"`, …) the guard `if (!grouped[m.timeline])` reads an
  inherited truthy value, skips creating the array, and the following
  `grouped[m.timeline].push(m)` throws a TypeError — the transform
  crashes.  The transform is therefore `Option`-valued, `none`
  standing for the throw.
* `Object.entries` enumerates own array-index keys — canonical
  numeric strings whose value is at most `2^32 - 2` — first, in
  ascending numeric order, and only then the remaining string keys in
  insertion order.  A timeline named `"2024"` therefore moves ahead of
  earlier-seen non-numeric timelines. -/

def isDigitChars (cs : List Char) : Bool :=
  decide (0 < cs.length) && cs.all Char.isDigit

def toNatDigits (cs : List Char) : Nat :=
  cs.foldl (fun n c => n * 10 + (c.toNat - 48)) 0

/-- The property names of `Object.prototype` (ES2023 function
properties, the `__proto__` accessor, and the Annex B accessor
methods present in browsers and Node).  Looking any of these up on an
empty plain object yields an inherited truthy value. -/
def objectPrototypeKeys : List String :=
  ["constructor", "hasOwnProperty", "isPrototypeOf", "propertyIsEnumerable",
   "toLocaleString", "toString", "valueOf", "__proto__",
   "__defineGetter__", "__defineSetter__", "__lookupGetter__", "__lookupSetter__"]

/-- The `grouped` object of `chartData`, as the own-key association
list in creation order — or `none` when the loop throws because a
timeline name hits an inherited `Object.prototype` property.  The
throw aborts the whole memo, so the partially built object is never
observed and the guard composes with the pure fold. -/
def grouped? (ms : List Milestone) : Option (List (String × List Milestone)) :=
  if ms.all (fun m => decide (m.timeline ∉ objectPrototypeKeys)) then
    some (grouped ms)
  else none

theorem grouped?_eq_some (ms : List Milestone)
    (h : ∀ m ∈ ms, m.timeline ∉ objectPrototypeKeys) :
    grouped? ms = some (grouped ms) := by
  unfold grouped?
  rw [if_pos]
  rw [List.all_eq_true]
  intro m hm
  exact decide_eq_true (h m hm)

theorem grouped?_some_eq (ms : List Milestone) (g : List (String × List Milestone))
    (hg : grouped? ms = some g) : g = grouped ms := by
  unfold grouped? at hg
  by_cases hall : (ms.all (fun m => decide (m.timeline ∉ objectPrototypeKeys))) = true
  · rw [if_pos hall] at hg
    exact (Option.some_inj.mp hg).symm
  · rw [if_neg hall] at hg
    exact Option.noConfusion hg

/-- An ECMAScript array-index key: a canonical numeric string (all
digits, no leading zero except `"0"` itself) whose value is at most
`2^32 - 2`. -/
def isArrayIndex (s : String) : Bool :=
  isDigitChars s.data &&
  (decide (s.data.length = 1) || decide (s.data.head? ≠ some '0')) &&
  decide (toNatDigits s.data ≤ 4294967294)

/-- Insert an entry into a list sorted by the numeric value of its
key (all keys inserted this way are array-index keys, hence distinct
numeric values). -/
def insertByKey {α : Type} (p : String × α) : List (String × α) → List (String × α)
  | [] => [p]
  | q :: rest =>
    if toNatDigits p.1.data < toNatDigits q.1.data then p :: q :: rest
    else q :: insertByKey p rest

/-- Insertion sort of entries by numeric key value. -/
def sortByNumericKey {α : Type} : List (String × α) → List (String × α)
  | [] => []
  | p :: rest => insertByKey p (sortByNumericKey rest)

/-- `Object.entries` enumeration order over the own keys of a plain
object: array-index keys in ascending numeric order first, then the
remaining keys in insertion order. -/
def jsEntryOrder {α : Type} (l : List (String × α)) : List (String × α) :=
  sortByNumericKey (l.filter (fun p => isArrayIndex p.1)) ++
    l.filter (fun p => !isArrayIndex p.1)

theorem insertByKey_perm {α : Type} (p : String × α) (l : List (String × α)) :
    (insertByKey p l).Perm (p :: l) := by
  induction l with
  | nil => exact List.Perm.of_eq rfl
  | cons q rest ih =>
    unfold insertByKey
    by_cases h : toNatDigits p.1.data < toNatDigits q.1.data
    · rw [if_pos h]
    · rw [if_neg h]
      exact (ih.cons q).trans (List.Perm.swap p q rest)

theorem sortByNumericKey_perm {α : Type} (l : List (String × α)) :
    (sortByNumericKey l).Perm l := by
  induction l with
  | nil => exact List.Perm.of_eq rfl
  | cons p rest ih =>
    unfold sortByNumericKey
    exact (insertByKey_perm p (sortByNumericKey rest)).trans (ih.cons p)

/-- Enumeration only reorders: `Object.entries` lists exactly the own
entries. -/
theorem jsEntryOrder_perm {α : Type} (l : List (String × α)) :
    (jsEntryOrder l).Perm l := by
  unfold jsEntryOrder
  exact ((sortByNumericKey_perm _).append (List.Perm.refl _)).trans
    (List.filter_append_perm (fun p => isArrayIndex p.1) l)

/-- When no key is an array-index key, `Object.entries` enumerates in
pure insertion order. -/
theorem jsEntryOrder_eq_self {α : Type} (l : List (String × α))
    (h : ∀ p ∈ l, isArrayIndex p.1 = false) : jsEntryOrder l = l := by
  unfold jsEntryOrder
  have h1 : l.filter (fun p => isArrayIndex p.1) = [] := by
    rw [List.filter_eq_nil_iff]
    intro p hp
    simp [h p hp]
  have h2 : l.filter (fun p => !isArrayIndex p.1) = l := by
    rw [List.filter_eq_self]
    intro p hp
    simp [h p hp]
  rw [h1, h2]
  rfl

/-! ## Dates

`parseISO` from date-fns, modelled at calendar-date precision: the
`YYYY`, `YYYY-MM` and `YYYY-MM-DD` forms, missing month and day
defaulting to 1 as in the library.  The library's further ISO-8601
forms (week dates `YYYY-Www-D`, ordinal dates `YYYY-DDD`, extended
years, and trailing time-of-day parts) are outside the modelled
subset — the app's inputs are `YYYY-MM-DD` placeholders and no claim
touches those forms.  A parse failure in date-fns yields an Invalid
Date whose `getTime()` is `NaN`; here the result of
`parseISO(s).getTime()` is modelled as `Option Int`, `none` standing
for `NaN`.  A successful parse yields midnight of that day as epoch
milliseconds (date-fns uses local midnight; the fixed zone offset is
irrelevant to every property below, so UTC midnight is used). -/

/-- Split a character list on `-`, the field separator of a
`YYYY-MM-DD` date string. -/
def splitDash : List Char → List (List Char)
  | [] => [[]]
  | c :: rest =>
    match splitDash rest with
    | [] => if c = '-' then [[], []] else [[c]]
    | g :: gs => if c = '-' then [] :: g :: gs else (c :: g) :: gs

def isLeapYear (y : Nat) : Bool :=
  (decide (y % 4 = 0) && decide (y % 100 ≠ 0)) || decide (y % 400 = 0)

def daysInMonth (y m : Nat) : Nat :=
  if m = 2 then (if isLeapYear y then 29 else 28)
  else if m = 4 ∨ m = 6 ∨ m = 9 ∨ m = 11 then 30
  else 31

/-- Days between 1970-01-01 and the given proleptic-Gregorian date
(Howard Hinnant's `days_from_civil`). -/
def daysFromCivil (y : Int) (m d : Nat) : Int :=
  let y2 : Int := if m ≤ 2 then y - 1 else y
  let era : Int := (if 0 ≤ y2 then y2 else y2 - 399) / 400
  let yoe : Int := y2 - era * 400
  let mp : Nat := if 2 < m then m - 3 else m + 9
  let doy : Int := (153 * (mp : Int) + 2) / 5 + (d : Int) - 1
  let doe : Int := yoe * 365 + yoe / 4 - yoe / 100 + doy
  era * 146097 + doe - 719468

/-- The value `parseISO(s).getTime()`: `some` epoch milliseconds for a
valid `YYYY`, `YYYY-MM` or `YYYY-MM-DD` string (missing month and day
default to 1), `none` (NaN) otherwise. -/
def parseISO (s : String) : Option Int :=
  match splitDash s.data with
  | [ys] =>
    if isDigitChars ys && decide (ys.length = 4) then
      some (daysFromCivil (toNatDigits ys : Int) 1 1 * 86400000)
    else none
  | [ys, ms] =>
    if isDigitChars ys && decide (ys.length = 4) &&
       isDigitChars ms && decide (ms.length = 2) then
      let m := toNatDigits ms
      if decide (1 ≤ m) && decide (m ≤ 12) then
        some (daysFromCivil (toNatDigits ys : Int) m 1 * 86400000)
      else none
    else none
  | [ys, ms, ds] =>
    if isDigitChars ys && decide (ys.length = 4) &&
       isDigitChars ms && decide (ms.length = 2) &&
       isDigitChars ds && decide (ds.length = 2) then
      let y := toNatDigits ys
      let m := toNatDigits ms
      let d := toNatDigits ds
      if decide (1 ≤ m) && decide (m ≤ 12) && decide (1 ≤ d) &&
         decide (d ≤ daysInMonth y m) then
        some (daysFromCivil (y : Int) m d * 86400000)
      else none
    else none
  | _ => none

/-! ## Chart data structures and the `chartData` transform -/

/-- One point of a dataset: the time range `x` (pair of
start/end timestamps, `none` = NaN), the category `y`, and the
milestone's title and id carried for labels and interaction. -/
structure DataPoint where
  x : Option Int × Option Int
  y : String
  title : String
  id : String
deriving Repr, DecidableEq

/-- One chart.js dataset entry as built in `chartData` (the static
styling fields `borderWidth`, `datalabels`, `borderRadius` carry no
per-milestone information and are omitted). -/
structure Dataset where
  label : String
  data : List DataPoint
  backgroundColor : String
  borderColor : String
  hidden : Bool
deriving Repr, DecidableEq

/-- The object `{ labels: timelines, datasets }` returned by the
`chartData` memo. -/
structure ChartData where
  labels : List String
  datasets : List Dataset
deriving Repr, DecidableEq

/-- The `timelineColors` object:
`timelines.forEach((t, idx) => map[t] = getColorFamily(idx))`,
modelled as an association list in insertion order. -/
def timelineColors (ms : List Milestone) :
    List (String × (String × String × String)) :=
  (timelines ms).enum.map (fun p => (p.2, getColorFamily p.1))

/-- Property lookup `obj[key]` on a string-keyed object with distinct
keys; `none` is JavaScript `undefined`. -/
def jsLookup {α : Type} (obj : List (String × α)) (key : String) : Option α :=
  (obj.find? (fun p => p.1 == key)).map Prod.snd

/-- The callback of `Object.entries(grouped).map(([timeline, ms]) =>
{...})`: one dataset from one entry, resolving the color triple through
`timelineColors[timeline] || ['#ccc','#888','#555']` and the hidden
flag through `hidden.has(timeline)`. -/
def datasetOf (ms : List Milestone) (hiddenSet : Finset String)
    (p : String × List Milestone) : Dataset :=
  let c := (jsLookup (timelineColors ms) p.1).getD ("#ccc", "#888", "#555")
  { label := p.1
    data := p.2.map (fun m =>
      { x := (parseISO m.start, parseISO m.«end»)
        y := p.1
        title := m.title
        id := m.id })
    backgroundColor := c.2.1
    borderColor := c.2.2
    hidden := decide (p.1 ∈ hiddenSet) }

/-- The `chartData` memo: group the milestones by timeline (`none`
when the grouping loop throws on a prototype-colliding timeline name),
then emit one dataset per `Object.entries(grouped)` entry in that
call's enumeration order. -/
def chartData (ms : List Milestone) (hiddenSet : Finset String) : Option ChartData :=
  match grouped? ms with
  | none => none
  | some g =>
    some { labels := timelines ms
           datasets := (jsEntryOrder g).map (datasetOf ms hiddenSet) }

/-- The chart dataset exactly as the specification words it (§4.4):
one dataset per Timeline Index entry, emitted in Timeline Index order;
the color triple is positional (`palette[index mod 5]`, mid = fill,
dark = border); the `hidden` flag is membership in the hidden set; the
points of a dataset are that timeline's milestones in repository
insertion order, each parsed to a start/end timestamp range with title
and id as metadata.  No sorting by date anywhere. -/
def specDatasets (ms : List Milestone) (hiddenSet : Finset String) : List Dataset :=
  (timelines ms).enum.map (fun p =>
    { label := p.2
      data := (ms.filter (fun m => decide (m.timeline = p.2))).map (fun m =>
        { x := (parseISO m.start, parseISO m.«end»)
          y := p.2
          title := m.title
          id := m.id })
      backgroundColor := (getColorFamily p.1).2.1
      borderColor := (getColorFamily p.1).2.2
      hidden := decide (p.2 ∈ hiddenSet) })

theorem find_enumFrom_map {α : Type} (f : Nat → α) (t : String) :
    ∀ (l : List String) (n i : Nat), l.Nodup → l.get? i = some t →
      ((l.enumFrom n).map (fun p => (p.2, f p.1))).find? (fun q => q.1 == t) =
        some (t, f (n + i)) := by
  intro l
  induction l with
  | nil => intro n i _ hget; simp at hget
  | cons a rest ih =>
    intro n i hnd hget
    cases i with
    | zero =>
      simp only [List.get?] at hget
      injection hget with hat
      subst hat
      simp [List.enumFrom, List.find?]
    | succ i =>
      simp only [List.get?] at hget
      have hmem : t ∈ rest := List.get?_mem hget
      have hne : (a == t) = false := by
        have : a ≠ t := fun he => (List.nodup_cons.mp hnd).1 (he ▸ hmem)
        simp [this]
      simp only [List.enumFrom, List.map_cons, List.find?]
      rw [hne]
      rw [ih (n + 1) i (List.nodup_cons.mp hnd).2 hget]
      have harith : n + 1 + i = n + (i + 1) := by omega
      rw [harith]

/-- Looking a timeline up in `timelineColors` returns the palette entry
for its zero-based position in the Timeline Index. -/
theorem jsLookup_timelineColors (ms : List Milestone) (t : String) (i : Nat)
    (hi : (timelines ms).get? i = some t) :
    jsLookup (timelineColors ms) t = some (getColorFamily i) := by
  unfold jsLookup timelineColors
  rw [show (timelines ms).enum = (timelines ms).enumFrom 0 from rfl]
  rw [find_enumFrom_map getColorFamily t (timelines ms) 0 i (timelines_nodup ms) hi]
  simp

/-- Mapping `datasetOf` over the own entries in insertion order gives
exactly the specification's datasets. -/
theorem grouped_map_datasetOf (ms : List Milestone) (hiddenSet : Finset String) :
    (grouped ms).map (datasetOf ms hiddenSet) = specDatasets ms hiddenSet := by
  rw [grouped_eq, specDatasets]
  have henum : (timelines ms).map
      (fun t => (t, ms.filter (fun m => decide (m.timeline = t)))) =
      ((timelines ms).enum.map
        (fun p => (p.2, ms.filter (fun m => decide (m.timeline = p.2))))) := by
    have hcomp : (timelines ms).enum.map
        (fun p => (p.2, ms.filter (fun m => decide (m.timeline = p.2)))) =
        ((timelines ms).enum.map Prod.snd).map
          (fun t => (t, ms.filter (fun m => decide (m.timeline = t)))) := by
      rw [List.map_map]; rfl
    rw [hcomp, List.enum_eq_enumFrom, List.enumFrom_map_snd]
  rw [henum, List.map_map]
  apply List.map_congr_left
  intro p hp
  have hget : (timelines ms).get? p.1 = some p.2 := by
    rw [List.get?_eq_getElem?]
    exact List.mem_enum_iff_getElem?.mp hp
  have hcol := jsLookup_timelineColors ms p.2 p.1 hget
  simp only [Function.comp, datasetOf]
  rw [hcol]
  rfl

/-- On collections whose timeline names neither collide with
`Object.prototype` properties nor look like array indices, the
transform succeeds and produces exactly the specification's shape:
labels = Timeline Index, datasets in Timeline Index order. -/
theorem chartData_spec (ms : List Milestone) (hiddenSet : Finset String)
    (hproto : ∀ m ∈ ms, m.timeline ∉ objectPrototypeKeys)
    (hidx : ∀ m ∈ ms, isArrayIndex m.timeline = false) :
    chartData ms hiddenSet =
      some { labels := timelines ms, datasets := specDatasets ms hiddenSet } := by
  have hg := grouped?_eq_some ms hproto
  have hkeys : ∀ p ∈ grouped ms, isArrayIndex p.1 = false := by
    intro p hp
    rw [grouped_eq] at hp
    obtain ⟨t, ht, rfl⟩ := List.mem_map.mp hp
    have ht2 : t ∈ ms.map (fun m => m.timeline) := (mem_timelines ms t).mp ht
    obtain ⟨m, hm, rfl⟩ := List.mem_map.mp ht2
    exact hidx m hm
  simp only [chartData, hg]
  rw [jsEntryOrder_eq_self (grouped ms) hkeys, grouped_map_datasetOf]

/-- Whether the transform succeeds depends only on the timeline names
(never on the hidden set or the dates): it fails exactly when some
timeline collides with an `Object.prototype` property. -/
theorem chartData_isSome (ms : List Milestone) (hiddenSet : Finset String) :
    (chartData ms hiddenSet).isSome =
      ms.all (fun m => decide (m.timeline ∉ objectPrototypeKeys)) := by
  unfold chartData grouped?
  by_cases hall : (ms.all (fun m => decide (m.timeline ∉ objectPrototypeKeys))) = true
  · rw [if_pos hall, hall]
    rfl
  · rw [if_neg hall]
    rw [Bool.not_eq_true] at hall
    rw [hall]
    rfl

/-- Mapping a function of the element only over an enumerated list is
mapping it over the list. -/
theorem enum_map_snd_eq {α β : Type} (l : List α) (g : α → β) :
    l.enum.map (fun p => g p.2) = l.map g := by
  have h : l.enum.map (fun p => g p.2) = (l.enum.map Prod.snd).map g := by
    rw [List.map_map]; rfl
  rw [h, List.enum_eq_enumFrom, List.enumFrom_map_snd]

/-! ## Component state and event handlers -/

/-- The form state.  `notes` is `Option String`: the reset objects in
`handleDelete` and in the Cancel button omit the `notes` key, leaving
it `undefined` (`none`), while the initial state and the reset in
`handleSubmit` set it to the empty string (`some ""`). -/
structure Form where
  title : String
  timeline : String
  start : String
  «end» : String
  notes : Option String
deriving Repr, DecidableEq

/-- The `App` component state: the milestone collection, the form, the
id being edited (`null` = `none`), and the hidden-timeline set. -/
structure AppState where
  milestones : List Milestone
  form : Form
  editingId : Option String
  hidden : Finset String
deriving DecidableEq

/-- The handler `handleSubmit`, with the `uuidv4()` draw passed in as `fresh`:
reject the submit with no state change when any of title, timeline,
start, end is empty; otherwise build the milestone with
`id = editingId || uuidv4()` (ids are non-empty, so `||` is `getD`),
replace in place when editing and append when not, then reset the form
(this reset keeps `notes` as `''`) and leave edit mode. -/
def handleSubmit (fresh : String) (s : AppState) : AppState :=
  if s.form.title = "" ∨ s.form.timeline = "" ∨ s.form.start = "" ∨ s.form.«end» = "" then
    s
  else
    let newMilestone : Milestone :=
      { id := s.editingId.getD fresh
        title := s.form.title
        timeline := s.form.timeline
        start := s.form.start
        «end» := s.form.«end»
        notes := s.form.notes }
    { s with
      milestones :=
        match s.editingId with
        | some eid => s.milestones.map (fun m => if m.id = eid then newMilestone else m)
        | none => s.milestones ++ [newMilestone]
      form := { title := "", timeline := "", start := "", «end» := "", notes := some "" }
      editingId := none }

/-- The handler `handleEdit(m)`: load the milestone into the form (including its
notes) and enter edit mode. -/
def handleEdit (m : Milestone) (s : AppState) : AppState :=
  { s with
    form := { title := m.title, timeline := m.timeline, start := m.start,
              «end» := m.«end», notes := m.notes }
    editingId := some m.id }

/-- The handler `handleDelete(id)`: drop every milestone whose id equals `id`; when
the deleted id is the one being edited, additionally leave edit mode
and reset the form — this particular reset object omits the `notes`
key. -/
def handleDelete (id : String) (s : AppState) : AppState :=
  let s2 := { s with milestones := s.milestones.filter (fun m => decide (m.id ≠ id)) }
  if s.editingId = some id then
    { s2 with
      editingId := none
      form := { title := "", timeline := "", start := "", «end» := "", notes := none } }
  else s2

/-- The handler `toggleTimeline(t)` flips membership of `t` in the hidden set;
nothing else changes. -/
def toggleTimeline (t : String) (s : AppState) : AppState :=
  { s with hidden := if t ∈ s.hidden then s.hidden.erase t else insert t s.hidden }

/-- Convenience constructor for the concrete milestones used in
examples and witnesses (`notes` present and empty, as after a plain
add). -/
def mkMilestone (id title timeline start e : String) : Milestone :=
  { id := id, title := title, timeline := timeline, start := start,
    «end» := e, notes := some "" }

/-- The example collection of the specification's §8 scenario. -/
def exampleMilestones : List Milestone :=
  [mkMilestone "m1" "Graduate" "Education" "2010-06-01" "2010-06-01",
   mkMilestone "m2" "First Job" "Career" "2010-07-01" "2015-01-01"]

/-! ## Claims -/

/-- Claim C1: for every milestone collection the Timeline Index equals
the sequence of distinct timeline values in first-seen order over the
collection in stored (insertion) order — each timeline collected the
first time it is seen, later duplicates skipped, no sorting
(`firstSeenIndex` is that scan, written from the specification);
recomputing on the same collection yields the same sequence (the
computation is a pure function, so determinism is reflexivity); and
timelines ["Work","Home","Work"] in insertion order yield the index
["Work","Home"]. -/
theorem claim_C1_timeline_index (ms : List Milestone) :
    timelines ms = firstSeenIndex (ms.map (fun m => m.timeline)) ∧
    timelines ms = timelines ms ∧
    timelines
      [mkMilestone "1" "a" "Work" "2020-01-01" "2020-01-02",
       mkMilestone "2" "b" "Home" "2020-02-01" "2020-02-02",
       mkMilestone "3" "c" "Work" "2020-03-01" "2020-03-02"] = ["Work", "Home"] :=
  ⟨timelines_eq_firstSeenIndex ms, rfl, by decide⟩

/-- A collection whose timeline names are integer-like: the Timeline
Index (a `Set`) keeps insertion order, but `Object.entries` enumerates
array-index keys in ascending numeric order. -/
def numericTimelineMilestones : List Milestone :=
  [mkMilestone "n1" "A" "2025" "2020-01-01" "2020-01-02",
   mkMilestone "n2" "B" "2024" "2020-02-01" "2020-02-02"]

/-- Claim C2 (counterexample): the datasets are not always in Timeline
Index order — with insertion-ordered timelines ["2025","2024"] the
Timeline Index is ["2025","2024"], but `Object.entries` enumerates the
integer-like keys numerically and the transform emits the datasets as
["2024","2025"]; and a timeline named "__proto__" makes the transform
throw instead of producing one dataset per timeline. -/
theorem claim_C2_counterexample :
    timelines numericTimelineMilestones = ["2025", "2024"] ∧
    (chartData numericTimelineMilestones ∅).map
        (fun c => c.datasets.map (fun d => d.label)) = some ["2024", "2025"] ∧
    (chartData numericTimelineMilestones ∅).map
        (fun c => c.datasets.map (fun d => d.label)) ≠
      some (timelines numericTimelineMilestones) ∧
    chartData [mkMilestone "p1" "X" "__proto__" "2020-01-01" "2020-01-02"] ∅ =
      none := by
  refine ⟨by decide, by decide, by decide, by decide⟩

/-- Claim C2 (amended): the transform emits exactly one dataset per
timeline, with points in repository insertion order and nothing sorted
by date, but the datasets appear in `Object.entries` enumeration
order — integer-like timeline names first, in ascending numeric
order — and a timeline named after an `Object.prototype` property
makes the transform throw.  For every collection whose timeline names
are neither integer-like nor prototype-colliding, the datasets are
exactly in Timeline Index order (`specDatasets` is the specification's
wording of that shape), and on the two-milestone example (Education
then Career) there are two series in the order ["Education","Career"],
the Education series having one point whose range is
[ts(2010-06-01), ts(2010-06-01)]. -/
theorem claim_C2_chart_shape (ms : List Milestone) (hiddenSet : Finset String)
    (hproto : ∀ m ∈ ms, m.timeline ∉ objectPrototypeKeys)
    (hidx : ∀ m ∈ ms, isArrayIndex m.timeline = false) :
    chartData ms hiddenSet =
      some { labels := timelines ms, datasets := specDatasets ms hiddenSet } ∧
    (chartData exampleMilestones ∅).map
        (fun c => c.datasets.map (fun d => d.label)) =
      some ["Education", "Career"] ∧
    (chartData exampleMilestones ∅).map
        (fun c => c.datasets.map (fun d => d.data.map (fun p => p.x))) =
      some [[(parseISO "2010-06-01", parseISO "2010-06-01")],
            [(parseISO "2010-07-01", parseISO "2015-01-01")]] ∧
    (parseISO "2010-06-01").isSome = true := by
  refine ⟨chartData_spec ms hiddenSet hproto hidx, by decide, by decide, by decide⟩

/-- Witness for C2 at the example collection, whose timeline names are
neither integer-like nor prototype-colliding. -/
theorem claim_C2_witness :
    chartData exampleMilestones ∅ =
      some { labels := timelines exampleMilestones,
             datasets := specDatasets exampleMilestones ∅ } :=
  (claim_C2_chart_shape exampleMilestones ∅ (by decide) (by decide)).1

/-- Claim C3: the color triple a timeline receives is a pure function of
its zero-based position in the Timeline Index, `palette[position mod 5]`
over the fixed five-entry palette: whatever its name, the timeline at
position 0 receives palette entry 0, and position 5 (a 6th distinct
timeline) receives palette entry 0 again. -/
theorem claim_C3_positional_colors (ms : List Milestone) (t : String) (i : Nat)
    (hi : (timelines ms).get? i = some t) :
    jsLookup (timelineColors ms) t = some (getColorFamily i) ∧
    getColorFamily i = colorFamilies.get ⟨i % 5, Nat.mod_lt _ (by decide)⟩ ∧
    getColorFamily 0 = colorFamilies.get ⟨0, by decide⟩ ∧
    getColorFamily 5 = colorFamilies.get ⟨0, by decide⟩ :=
  ⟨jsLookup_timelineColors ms t i hi, rfl, rfl, rfl⟩

/-- Witness for C3: in a concrete collection whose Timeline Index is
["Work"], the timeline "Work" sits at position 0 and its color resolves
to palette entry 0. -/
theorem claim_C3_witness :
    (timelines [mkMilestone "1" "a" "Work" "2020-01-01" "2020-01-02"]).get? 0 =
      some "Work" ∧
    jsLookup (timelineColors [mkMilestone "1" "a" "Work" "2020-01-01" "2020-01-02"])
      "Work" = some (getColorFamily 0) :=
  ⟨by decide,
   (claim_C3_positional_colors
     [mkMilestone "1" "a" "Work" "2020-01-01" "2020-01-02"] "Work" 0 (by decide)).1⟩

/-- Claim C5 (counterexample): the claim says an unparseable date makes
the transform fail with an InvalidDateError surfaced to the rendering
boundary "rather than … silently producing an invalid range value"; the
code has no date error path at all — at this concrete input the
transform succeeds (`isSome`) and its only data point silently carries
NaN (`none`) as the start of its range. -/
theorem claim_C5_counterexample :
    parseISO "not-a-date" = none ∧
    (chartData [mkMilestone "b1" "Bad" "T" "not-a-date" "2020-01-02"] ∅).isSome =
      true ∧
    (chartData [mkMilestone "b1" "Bad" "T" "not-a-date" "2020-01-02"] ∅).map
        (fun c => c.datasets.map (fun d => d.data.map (fun p => p.x))) =
      some [[(none, parseISO "2020-01-02")]] ∧
    (parseISO "2020-01-02").isSome = true := by
  refine ⟨by decide, by decide, by decide, by decide⟩

/-- Claim C5 (amended): at chart-build time an unparseable start or end
date raises no error and does not crash the transform — the code has no
InvalidDateError, and the transform's only failure mode is a timeline
name colliding with an `Object.prototype` property, a condition
independent of the dates; every emitted data point's range is exactly
`(parseISO start, parseISO end)` of its milestone, so an unparseable
date silently contributes `NaN` (modelled `none`) to the range handed
to the rendering boundary. -/
theorem claim_C5_nan_ranges (ms : List Milestone) (hiddenSet : Finset String) :
    (chartData ms hiddenSet).isSome =
      ms.all (fun m => decide (m.timeline ∉ objectPrototypeKeys)) ∧
    (chartData ms hiddenSet).map
        (fun c => c.datasets.map (fun d => d.data.map (fun p => p.x))) =
      (grouped? ms).map (fun g => (jsEntryOrder g).map
        (fun p => p.2.map (fun m => (parseISO m.start, parseISO m.«end»)))) := by
  refine ⟨chartData_isSome ms hiddenSet, ?_⟩
  cases hg : grouped? ms with
  | none => simp [chartData, hg]
  | some g =>
    simp only [chartData, hg, Option.map_some']
    rw [List.map_map]
    apply congrArg
    apply List.map_congr_left
    intro p _
    simp only [Function.comp, datasetOf, List.map_map]
    rfl

/-- Valid submit outside edit mode: the collection gains exactly the new
record, at the end. -/
theorem handleSubmit_append (fresh : String) (s : AppState)
    (hv : ¬ (s.form.title = "" ∨ s.form.timeline = "" ∨ s.form.start = "" ∨
      s.form.«end» = ""))
    (he : s.editingId = none) :
    (handleSubmit fresh s).milestones =
      s.milestones ++
        [{ id := fresh, title := s.form.title, timeline := s.form.timeline,
           start := s.form.start, «end» := s.form.«end», notes := s.form.notes }] := by
  simp [handleSubmit, if_neg hv, he]

/-- Valid submit in edit mode: every record whose id is the edited one
is replaced in place by the new field values under the same id. -/
theorem handleSubmit_map (fresh : String) (s : AppState) (eid : String)
    (hv : ¬ (s.form.title = "" ∨ s.form.timeline = "" ∨ s.form.start = "" ∨
      s.form.«end» = ""))
    (he : s.editingId = some eid) :
    (handleSubmit fresh s).milestones =
      s.milestones.map (fun m => if m.id = eid then
        { id := eid, title := s.form.title, timeline := s.form.timeline,
          start := s.form.start, «end» := s.form.«end», notes := s.form.notes }
        else m) := by
  simp [handleSubmit, if_neg hv, he]

/-- Replacing by id is the identity when no element carries the id. -/
theorem map_update_id_eq (l : List Milestone) (eid : String) (v : Milestone)
    (habs : ∀ m ∈ l, m.id ≠ eid) :
    l.map (fun m => if m.id = eid then v else m) = l := by
  have h : ∀ m ∈ l, (if m.id = eid then v else m) = m := fun m hm => if_neg (habs m hm)
  rw [List.map_congr_left h]
  exact List.map_id l

/-- The label/hidden projection of the specification datasets is the
Timeline Index paired with hidden-set membership. -/
theorem specDatasets_label_hidden (ms : List Milestone) (hiddenSet : Finset String) :
    (specDatasets ms hiddenSet).map (fun d => (d.label, d.hidden)) =
      (timelines ms).map (fun u => (u, decide (u ∈ hiddenSet))) := by
  unfold specDatasets
  rw [List.map_map]
  exact enum_map_snd_eq (timelines ms) (fun u => (u, decide (u ∈ hiddenSet)))

/-- Claim C4: submitting with any of title/timeline/start/end empty is
rejected with no state change whatsoever — in particular no partial
record is created; a valid submit outside edit mode appends exactly one
new record, carrying the fresh id, at the end of the collection, all
existing records keeping their positions, and uniqueness of ids is
preserved whenever the fresh id is genuinely new. -/
theorem claim_C4_add (fresh : String) (s : AppState) :
    ((s.form.title = "" ∨ s.form.timeline = "" ∨ s.form.start = "" ∨
        s.form.«end» = "") →
      handleSubmit fresh s = s) ∧
    (¬ (s.form.title = "" ∨ s.form.timeline = "" ∨ s.form.start = "" ∨
        s.form.«end» = "") →
      s.editingId = none →
      (handleSubmit fresh s).milestones =
        s.milestones ++
          [{ id := fresh, title := s.form.title, timeline := s.form.timeline,
             start := s.form.start, «end» := s.form.«end», notes := s.form.notes }] ∧
      (fresh ∉ s.milestones.map (fun m => m.id) →
        (s.milestones.map (fun m => m.id)).Nodup →
        ((handleSubmit fresh s).milestones.map (fun m => m.id)).Nodup)) := by
  constructor
  · intro hv
    simp only [handleSubmit, if_pos hv]
  · intro hv he
    have hms := handleSubmit_append fresh s hv he
    refine ⟨hms, ?_⟩
    intro hf hn
    rw [hms, List.map_append]
    rw [List.nodup_append]
    refine ⟨hn, by simp, ?_⟩
    intro x hx
    simp only [List.map_cons, List.map_nil, List.mem_singleton]
    intro hxf
    subst hxf
    exact hf hx

/-- Witness for C4: a concrete rejected submit (empty title, state
unchanged) and a concrete successful add (record appended at the
end). -/
theorem claim_C4_witness :
    handleSubmit "f1"
      { milestones := exampleMilestones,
        form := { title := "", timeline := "W", start := "2021-01-01",
                  «end» := "2021-01-02", notes := some "" },
        editingId := none, hidden := ∅ } =
      { milestones := exampleMilestones,
        form := { title := "", timeline := "W", start := "2021-01-01",
                  «end» := "2021-01-02", notes := some "" },
        editingId := none, hidden := ∅ } ∧
    (handleSubmit "f2"
      { milestones := exampleMilestones,
        form := { title := "B", timeline := "W", start := "2021-01-01",
                  «end» := "2021-01-02", notes := some "n" },
        editingId := none, hidden := ∅ }).milestones =
      exampleMilestones ++
        [{ id := "f2", title := "B", timeline := "W", start := "2021-01-01",
           «end» := "2021-01-02", notes := some "n" }] :=
  ⟨(claim_C4_add "f1"
      { milestones := exampleMilestones,
        form := { title := "", timeline := "W", start := "2021-01-01",
                  «end» := "2021-01-02", notes := some "" },
        editingId := none, hidden := ∅ }).1 (by decide),
   ((claim_C4_add "f2"
      { milestones := exampleMilestones,
        form := { title := "B", timeline := "W", start := "2021-01-01",
                  «end» := "2021-01-02", notes := some "n" },
        editingId := none, hidden := ∅ }).2 (by decide) rfl).1⟩

/-- Claim C6: a valid update of an existing record (unique ids) keeps
the record's id and its position in the collection: the length is
unchanged, the edited position holds the record with the same id and
the new field values, and every other position is untouched. -/
theorem claim_C6_update_in_place (fresh : String) (s : AppState) (eid : String)
    (i : Nat) (m : Milestone)
    (he : s.editingId = some eid)
    (hv : ¬ (s.form.title = "" ∨ s.form.timeline = "" ∨ s.form.start = "" ∨
      s.form.«end» = ""))
    (hn : (s.milestones.map (fun m => m.id)).Nodup)
    (hi : s.milestones.get? i = some m)
    (hm : m.id = eid) :
    (handleSubmit fresh s).milestones.length = s.milestones.length ∧
    (handleSubmit fresh s).milestones.get? i =
      some { id := eid, title := s.form.title, timeline := s.form.timeline,
             start := s.form.start, «end» := s.form.«end», notes := s.form.notes } ∧
    ∀ j, j ≠ i → (handleSubmit fresh s).milestones.get? j = s.milestones.get? j := by
  have hms := handleSubmit_map fresh s eid hv he
  refine ⟨by rw [hms]; exact List.length_map _ _, ?_, ?_⟩
  · rw [hms, List.get?_map, hi]
    simp [hm]
  · intro j hj
    rw [hms, List.get?_map]
    cases hjv : s.milestones.get? j with
    | none => rfl
    | some m2 =>
      have hne : m2.id ≠ eid := by
        intro heq
        have hIdI : (s.milestones.map (fun m => m.id)).get? i = some eid := by
          rw [List.get?_map, hi]
          simp [hm]
        have hIdJ : (s.milestones.map (fun m => m.id)).get? j = some eid := by
          rw [List.get?_map, hjv]
          simp [heq]
        have hilen : i < (s.milestones.map (fun m => m.id)).length := by
          by_contra hle
          push_neg at hle
          rw [List.get?_eq_none.mpr hle] at hIdI
          exact Option.noConfusion hIdI
        have hij : i = j := List.get?_inj hilen hn (hIdI.trans hIdJ.symm)
        exact hj hij.symm
      simp [hne]

/-- Witness for C6 at a concrete editing state: updating the first of
the two example milestones replaces position 0 under the same id and
leaves position 1 untouched. -/
theorem claim_C6_witness :
    (handleSubmit "f3"
      { milestones := exampleMilestones,
        form := { title := "B", timeline := "W", start := "2021-01-01",
                  «end» := "2021-01-02", notes := some "n" },
        editingId := some "m1", hidden := ∅ }).milestones.get? 0 =
      some { id := "m1", title := "B", timeline := "W", start := "2021-01-01",
             «end» := "2021-01-02", notes := some "n" } ∧
    (handleSubmit "f3"
      { milestones := exampleMilestones,
        form := { title := "B", timeline := "W", start := "2021-01-01",
                  «end» := "2021-01-02", notes := some "n" },
        editingId := some "m1", hidden := ∅ }).milestones.get? 1 =
      exampleMilestones.get? 1 :=
  ⟨(claim_C6_update_in_place "f3"
      { milestones := exampleMilestones,
        form := { title := "B", timeline := "W", start := "2021-01-01",
                  «end» := "2021-01-02", notes := some "n" },
        editingId := some "m1", hidden := ∅ } "m1" 0
      (mkMilestone "m1" "Graduate" "Education" "2010-06-01" "2010-06-01")
      rfl (by decide) (by decide) (by decide) rfl).2.1,
   (claim_C6_update_in_place "f3"
      { milestones := exampleMilestones,
        form := { title := "B", timeline := "W", start := "2021-01-01",
                  «end» := "2021-01-02", notes := some "n" },
        editingId := some "m1", hidden := ∅ } "m1" 0
      (mkMilestone "m1" "Graduate" "Education" "2010-06-01" "2010-06-01")
      rfl (by decide) (by decide) (by decide) rfl).2.2 1 (by decide)⟩

/-- Claim C7: submitting in edit mode when no stored record carries the
edited id leaves the collection unchanged — nothing is replaced and the
submitted fields are not inserted as a new record. -/
theorem claim_C7_update_missing (fresh : String) (s : AppState) (eid : String)
    (he : s.editingId = some eid)
    (habs : ∀ m ∈ s.milestones, m.id ≠ eid) :
    (handleSubmit fresh s).milestones = s.milestones := by
  by_cases hv : s.form.title = "" ∨ s.form.timeline = "" ∨ s.form.start = "" ∨
    s.form.«end» = ""
  · simp only [handleSubmit, if_pos hv]
  · rw [handleSubmit_map fresh s eid hv he]
    exact map_update_id_eq _ _ _ habs

/-- Witness for C7: submitting while editing the absent id "zz" leaves
the example collection exactly as it was. -/
theorem claim_C7_witness :
    (handleSubmit "f4"
      { milestones := exampleMilestones,
        form := { title := "B", timeline := "W", start := "2021-01-01",
                  «end» := "2021-01-02", notes := some "n" },
        editingId := some "zz", hidden := ∅ }).milestones = exampleMilestones :=
  claim_C7_update_missing "f4"
    { milestones := exampleMilestones,
      form := { title := "B", timeline := "W", start := "2021-01-01",
                «end» := "2021-01-02", notes := some "n" },
      editingId := some "zz", hidden := ∅ } "zz" rfl (by decide)

/-- Claim C8: for every overlay state and timeline key, toggling the
same timeline twice in succession returns the hidden set to exactly its
original state. -/
theorem claim_C8_toggle_involution (s : AppState) (t : String) :
    (toggleTimeline t (toggleTimeline t s)).hidden = s.hidden := by
  by_cases h : t ∈ s.hidden
  · simp [toggleTimeline, h, Finset.insert_erase]
  · simp [toggleTimeline, h, Finset.erase_insert]

/-- Claim C9: toggling mutates only the hidden set — removing the key
when present, inserting it otherwise — and leaves the milestone
collection, the form, and the editing id untouched; and a hidden
timeline is not filtered out of the Timeline Index or the dataset's
category axis: whether the transform succeeds does not depend on the
hidden set, and whenever it does, the labels are the full Timeline
Index, the dataset labels are a permutation of the Timeline Index, and
every timeline — hidden or not — keeps a dataset entry whose `hidden`
flag is exactly its membership in the set. -/
theorem claim_C9_toggle_frame (s : AppState) (t : String) :
    (toggleTimeline t s).milestones = s.milestones ∧
    (toggleTimeline t s).form = s.form ∧
    (toggleTimeline t s).editingId = s.editingId ∧
    (toggleTimeline t s).hidden =
      (if t ∈ s.hidden then s.hidden.erase t else insert t s.hidden) ∧
    ∀ hiddenSet : Finset String,
      (chartData s.milestones hiddenSet).isSome =
        (chartData s.milestones s.hidden).isSome ∧
      ∀ c, chartData s.milestones hiddenSet = some c →
        c.labels = timelines s.milestones ∧
        (c.datasets.map (fun d => d.label)).Perm (timelines s.milestones) ∧
        ∀ u ∈ timelines s.milestones,
          ∃ d ∈ c.datasets, d.label = u ∧ d.hidden = decide (u ∈ hiddenSet) := by
  refine ⟨rfl, rfl, rfl, rfl, ?_⟩
  intro hiddenSet
  constructor
  · rw [chartData_isSome, chartData_isSome]
  · intro c hc
    cases hg : grouped? s.milestones with
    | none => simp [chartData, hg] at hc
    | some g =>
      have hgg : g = grouped s.milestones := grouped?_some_eq s.milestones g hg
      simp only [chartData, hg, Option.some_inj] at hc
      subst hc
      refine ⟨rfl, ?_, ?_⟩
      · have hlab : ((jsEntryOrder g).map
            (datasetOf s.milestones hiddenSet)).map (fun d => d.label) =
            (jsEntryOrder g).map Prod.fst := by
          rw [List.map_map]
          rfl
        rw [hlab, hgg]
        have hperm := (jsEntryOrder_perm (grouped s.milestones)).map Prod.fst
        rw [grouped_keys] at hperm
        exact hperm
      · intro u hu
        have hpair : (u, s.milestones.filter (fun m => decide (m.timeline = u))) ∈
            grouped s.milestones := by
          rw [grouped_eq]
          exact List.mem_map_of_mem _ hu
        have hmem : (u, s.milestones.filter (fun m => decide (m.timeline = u))) ∈
            jsEntryOrder g := by
          rw [hgg]
          exact ((jsEntryOrder_perm (grouped s.milestones)).mem_iff).mpr hpair
        exact ⟨datasetOf s.milestones hiddenSet
            (u, s.milestones.filter (fun m => decide (m.timeline = u))),
          List.mem_map_of_mem _ hmem, rfl, rfl⟩

/-- Witness for C9 at the example collection: toggling leaves the
collection unchanged, and the successfully built chart keeps the full
Timeline Index as labels with an "Education" dataset entry flagged by
membership in the empty hidden set. -/
theorem claim_C9_witness :
    (toggleTimeline "Education"
      { milestones := exampleMilestones,
        form := { title := "", timeline := "", start := "", «end» := "",
                  notes := some "" },
        editingId := none, hidden := ∅ }).milestones = exampleMilestones ∧
    ((chartData exampleMilestones ∅).getD ⟨[], []⟩).labels =
      timelines exampleMilestones ∧
    ∃ d ∈ ((chartData exampleMilestones ∅).getD ⟨[], []⟩).datasets,
      d.label = "Education" ∧ d.hidden = decide ("Education" ∈ (∅ : Finset String)) := by
  have hfull := claim_C9_toggle_frame
    { milestones := exampleMilestones,
      form := { title := "", timeline := "", start := "", «end» := "",
                notes := some "" },
      editingId := none, hidden := ∅ } "Education"
  have hsome : chartData exampleMilestones ∅ =
      some ((chartData exampleMilestones ∅).getD ⟨[], []⟩) := by decide
  have hpart := (hfull.2.2.2.2 ∅).2 ((chartData exampleMilestones ∅).getD ⟨[], []⟩) hsome
  exact ⟨hfull.1, hpart.1, hpart.2.2 "Education" (by decide)⟩

/-- Claim C10: deleting the id currently being edited removes it from
the collection and also resets the editing state — the editing id
becomes none and the form fields are cleared (the reset object omits
`notes`, leaving it undefined) — so a subsequent valid submit appends a
new record instead of updating; deleting any other id leaves the
editing id and the form unchanged. -/
theorem claim_C10_delete_resets_editing (s : AppState) (id : String) :
    (handleDelete id s).milestones =
      s.milestones.filter (fun m => decide (m.id ≠ id)) ∧
    (s.editingId = some id →
      (handleDelete id s).editingId = none ∧
      (handleDelete id s).form =
        { title := "", timeline := "", start := "", «end» := "", notes := none } ∧
      ∀ (fresh : String) (f : Form),
        ¬ (f.title = "" ∨ f.timeline = "" ∨ f.start = "" ∨ f.«end» = "") →
        (handleSubmit fresh { handleDelete id s with form := f }).milestones =
          (handleDelete id s).milestones ++
            [{ id := fresh, title := f.title, timeline := f.timeline,
               start := f.start, «end» := f.«end», notes := f.notes }]) ∧
    (s.editingId ≠ some id →
      (handleDelete id s).editingId = s.editingId ∧
      (handleDelete id s).form = s.form) := by
  refine ⟨?_, ?_, ?_⟩
  · by_cases h : s.editingId = some id
    · simp only [handleDelete, if_pos h]
    · simp only [handleDelete, if_neg h]
  · intro h
    refine ⟨by simp only [handleDelete, if_pos h], by simp only [handleDelete, if_pos h], ?_⟩
    intro fresh f hv
    have he2 : ({ handleDelete id s with form := f } : AppState).editingId = none := by
      simp only [handleDelete, if_pos h]
    exact handleSubmit_append fresh { handleDelete id s with form := f } hv he2
  · intro h
    exact ⟨by simp only [handleDelete, if_neg h], by simp only [handleDelete, if_neg h]⟩

/-- Witness for C10: deleting the edited id "m1" resets the editing
state and a following valid submit appends; deleting "m1" while "m2" is
edited keeps the editing state. -/
theorem claim_C10_witness :
    (handleDelete "m1"
      { milestones := exampleMilestones,
        form := { title := "B", timeline := "W", start := "2021-01-01",
                  «end» := "2021-01-02", notes := some "n" },
        editingId := some "m1", hidden := ∅ }).editingId = none ∧
    (handleDelete "m1"
      { milestones := exampleMilestones,
        form := { title := "B", timeline := "W", start := "2021-01-01",
                  «end» := "2021-01-02", notes := some "n" },
        editingId := some "m1", hidden := ∅ }).form =
      { title := "", timeline := "", start := "", «end» := "", notes := none } ∧
    (handleDelete "m1"
      { milestones := exampleMilestones,
        form := { title := "B", timeline := "W", start := "2021-01-01",
                  «end» := "2021-01-02", notes := some "n" },
        editingId := some "m2", hidden := ∅ }).editingId = some "m2" := by
  refine ⟨((claim_C10_delete_resets_editing
      { milestones := exampleMilestones,
        form := { title := "B", timeline := "W", start := "2021-01-01",
                  «end» := "2021-01-02", notes := some "n" },
        editingId := some "m1", hidden := ∅ } "m1").2.1 rfl).1,
    ((claim_C10_delete_resets_editing
      { milestones := exampleMilestones,
        form := { title := "B", timeline := "W", start := "2021-01-01",
                  «end» := "2021-01-02", notes := some "n" },
        editingId := some "m1", hidden := ∅ } "m1").2.1 rfl).2.1,
    ((claim_C10_delete_resets_editing
      { milestones := exampleMilestones,
        form := { title := "B", timeline := "W", start := "2021-01-01",
                  «end» := "2021-01-02", notes := some "n" },
        editingId := some "m2", hidden := ∅ } "m1").2.2 (by decide)).1⟩
